import Mathlib

set_option maxRecDepth 20000

/-!
Verification of the instruction-routing orchestrator (`agent/myagent.py`) and the
recording routes (`livekit-dashboard/app/routes/egress.py`) of the
multiagent-selfhost-livekit repository, as a shallow embedding in Lean 4.

Python strings are modelled as Lean `String`; Python builtins used by the code
(`str.lower`, `str.strip`, `str.split(sep, 1)`, `int(str)`) are modelled by the
`py*` helpers below, faithful on the ASCII inputs the code compares against.
-/

/-- ASCII lower-casing of one character. -/
def pyLowerChar (c : Char) : Char :=
  if 'A' ≤ c ∧ c ≤ 'Z' then Char.ofNat (c.toNat + 32) else c

/-- Models Python `str.lower()` (ASCII case mapping; all strings the code
compares the result against are ASCII). -/
def pyLower (s : String) : String := String.mk (s.data.map pyLowerChar)

/-- Python whitespace recognised by `str.strip()` (ASCII part of Unicode
whitespace; the constants compared against are ASCII). -/
def pyIsSpace (c : Char) : Bool :=
  c = ' ' || c = '\t' || c = '\n' || c = '\r' || c = '\x0b' || c = '\x0c'

/-- Strips `pyIsSpace` characters from both ends of a character list. -/
def pyStripList (cs : List Char) : List Char :=
  ((cs.dropWhile pyIsSpace).reverse.dropWhile pyIsSpace).reverse

/-- Models Python `str.strip()`. -/
def pyStrip (s : String) : String := String.mk (pyStripList s.data)

/-- Auxiliary for `splitOnce`: splits a character list at the first occurrence
of `c`, returning the parts before and after it, or `none` when absent. -/
def splitOnceAux (c : Char) : List Char → Option (List Char × List Char)
  | [] => none
  | x :: xs =>
    if x = c then some ([], xs)
    else
      match splitOnceAux c xs with
      | none => none
      | some (a, b) => some (x :: a, b)

/-- Models Python `s.split(sep, 1)` followed by a 2-tuple unpacking: yields the
parts around the first occurrence of `sep`, or `none` (an unpacking
`ValueError`) when `sep` does not occur. -/
def splitOnce (s : String) (c : Char) : Option (String × String) :=
  match splitOnceAux c s.data with
  | none => none
  | some (a, b) => some (String.mk a, String.mk b)

/-- `startsWithList hay needle`: `needle` is an initial segment of `hay`. -/
def startsWithList : List Char → List Char → Bool
  | _, [] => true
  | [], _ :: _ => false
  | a :: as, b :: bs => a == b && startsWithList as bs

/-- `containsSub hay needle`: `needle` occurs contiguously in `hay`. -/
def containsSub : List Char → List Char → Bool
  | [], needle => needle.isEmpty
  | hay@(_ :: t), needle => startsWithList hay needle || containsSub t needle

/-- Models Python `needle in hay` on strings (substring containment). -/
def strContains (hay needle : String) : Bool :=
  containsSub hay.data needle.data

/-- `strEndsWith s t`: `t` is a final segment of `s`. -/
def strEndsWith (s t : String) : Bool :=
  startsWithList s.data.reverse t.data.reverse

/-! ## Orchestrator core (`agent/myagent.py`) -/

/-- The `OrchestrationState` TypedDict of `myagent.py`: every key is present
from the initial dict onward, so it is a structure here. -/
structure OrchestrationState where
  selected_lang : String
  task_mode : String
  route : String
  instructions : String
deriving DecidableEq, Repr

/-- `SUPPORTED_MODES = {"general", "sales", "support", "technical"}`
(a Python set; modelled as a list, membership is all that is used). -/
def SUPPORTED_MODES : List String := ["general", "sales", "support", "technical"]

/-- Instruction template attached by `_general_hi_node`. -/
def GENERAL_HI_INSTRUCTIONS : String :=
  "You are a helpful general-purpose voice assistant. Respond primarily in Hindi. Keep responses short and concise. Never use emojis."

/-- Instruction template attached by `_general_en_node`. -/
def GENERAL_EN_INSTRUCTIONS : String :=
  "You are a helpful general-purpose voice assistant. Respond in English. Keep responses short and concise. Never use emojis."

/-- Instruction template attached by `_sales_hi_node`. -/
def SALES_HI_INSTRUCTIONS : String :=
  "You are a Hindi sales assistant. Understand user needs first, then recommend suitable options with clear benefits and price clarity. Keep responses short and concise. Never use emojis."

/-- Instruction template attached by `_sales_en_node`. -/
def SALES_EN_INSTRUCTIONS : String :=
  "You are an English sales assistant. Understand user needs first, then recommend suitable options with clear benefits and price clarity. Keep responses short and concise. Never use emojis."

/-- Instruction template attached by `_support_hi_node`. -/
def SUPPORT_HI_INSTRUCTIONS : String :=
  "You are a Hindi customer support assistant. Diagnose the problem step-by-step, ask only necessary follow-up questions, and provide actionable fixes. Keep responses short and concise. Never use emojis."

/-- Instruction template attached by `_support_en_node`. -/
def SUPPORT_EN_INSTRUCTIONS : String :=
  "You are an English customer support assistant. Diagnose the problem step-by-step, ask only necessary follow-up questions, and provide actionable fixes. Keep responses short and concise. Never use emojis."

/-- Instruction template attached by `_technical_hi_node`. -/
def TECHNICAL_HI_INSTRUCTIONS : String :=
  "You are a Hindi technical assistant. Explain technical concepts accurately, provide practical implementation steps, and call out assumptions. Keep responses short and concise. Never use emojis."

/-- Instruction template attached by `_technical_en_node`. -/
def TECHNICAL_EN_INSTRUCTIONS : String :=
  "You are an English technical assistant. Explain technical concepts accurately, provide practical implementation steps, and call out assumptions. Keep responses short and concise. Never use emojis."

/-- `_supervisor_node`: normalizes `task_mode` (`.lower().strip()`, clamp to
`SUPPORTED_MODES` with fallback `"general"`), computes
`route = f"{task_mode}_{'hi' if selected_lang == 'hi' else 'en'}"`. -/
def supervisor_node (state : OrchestrationState) : OrchestrationState :=
  let selected_lang := state.selected_lang
  let task_mode0 := pyStrip (pyLower state.task_mode)
  let task_mode := if task_mode0 ∈ SUPPORTED_MODES then task_mode0 else "general"
  let route := task_mode ++ "_" ++ (if selected_lang = "hi" then "hi" else "en")
  { state with task_mode := task_mode, route := route }

/-- `_general_hi_node`. -/
def general_hi_node (state : OrchestrationState) : OrchestrationState :=
  { state with instructions := GENERAL_HI_INSTRUCTIONS }

/-- `_general_en_node`. -/
def general_en_node (state : OrchestrationState) : OrchestrationState :=
  { state with instructions := GENERAL_EN_INSTRUCTIONS }

/-- `_sales_hi_node`. -/
def sales_hi_node (state : OrchestrationState) : OrchestrationState :=
  { state with instructions := SALES_HI_INSTRUCTIONS }

/-- `_sales_en_node`. -/
def sales_en_node (state : OrchestrationState) : OrchestrationState :=
  { state with instructions := SALES_EN_INSTRUCTIONS }

/-- `_support_hi_node`. -/
def support_hi_node (state : OrchestrationState) : OrchestrationState :=
  { state with instructions := SUPPORT_HI_INSTRUCTIONS }

/-- `_support_en_node`. -/
def support_en_node (state : OrchestrationState) : OrchestrationState :=
  { state with instructions := SUPPORT_EN_INSTRUCTIONS }

/-- `_technical_hi_node`. -/
def technical_hi_node (state : OrchestrationState) : OrchestrationState :=
  { state with instructions := TECHNICAL_HI_INSTRUCTIONS }

/-- `_technical_en_node`. -/
def technical_en_node (state : OrchestrationState) : OrchestrationState :=
  { state with instructions := TECHNICAL_EN_INSTRUCTIONS }

/-- `_route_from_supervisor`: the conditional-edge selector. -/
def route_from_supervisor (state : OrchestrationState) : String :=
  state.route

/-- The terminal nodes registered by `build_orchestrator` via `add_node`. -/
def graph_nodes : List (String × (OrchestrationState → OrchestrationState)) :=
  [("general_hi", general_hi_node),
   ("general_en", general_en_node),
   ("sales_hi", sales_hi_node),
   ("sales_en", sales_en_node),
   ("support_hi", support_hi_node),
   ("support_en", support_en_node),
   ("technical_hi", technical_hi_node),
   ("technical_en", technical_en_node)]

/-- The mapping passed to `add_conditional_edges` in `build_orchestrator`:
route value emitted by the supervisor ↦ target node name. -/
def conditional_edge_map : List (String × String) :=
  [("general_hi", "general_hi"),
   ("general_en", "general_en"),
   ("sales_hi", "sales_hi"),
   ("sales_en", "sales_en"),
   ("support_hi", "support_hi"),
   ("support_en", "support_en"),
   ("technical_hi", "technical_hi"),
   ("technical_en", "technical_en")]

/-- One invocation of the compiled graph built by `build_orchestrator`:
entry point `supervisor`, then the conditional edge selected by
`_route_from_supervisor`, then the chosen terminal node, then `END`.
`none` models the langgraph runtime error raised when the selector returns a
key absent from the conditional-edge mapping (or an unregistered node). -/
def ORCHESTRATOR_invoke (init : OrchestrationState) : Option OrchestrationState :=
  let s1 := supervisor_node init
  match conditional_edge_map.lookup (route_from_supervisor s1) with
  | none => none
  | some target =>
    match graph_nodes.lookup target with
    | none => none
    | some node => some (node s1)

/-- `get_orchestrated_instructions`: invokes the graph on the fresh state
`{selected_lang, task_mode, route: "", instructions: ""}` and returns
`(result.get("route", "general_en"), result.get("instructions", ...))`.
All four TypedDict keys are present in the result state (the initial dict has
them and the nodes only update), so the `.get` defaults never apply and the
accesses are plain field reads. `none` models an exception escaping `invoke`. -/
def get_orchestrated_instructions (selected_lang task_mode : String) :
    Option (String × String) :=
  match ORCHESTRATOR_invoke
      { selected_lang := selected_lang, task_mode := task_mode,
        route := "", instructions := "" } with
  | none => none
  | some result => some (result.route, result.instructions)

/-- The 8 legal route keys: exactly the language of the regular expression
`(general|sales|support|technical)_(hi|en)` anchored at both ends. -/
def legalRoutes : List String :=
  ["general_hi", "general_en", "sales_hi", "sales_en",
   "support_hi", "support_en", "technical_hi", "technical_en"]

/-- The route → instruction-template catalog realised by the terminal nodes. -/
def textFor (route : String) : String :=
  match (graph_nodes.lookup route) with
  | some node => (node ⟨"", "", "", ""⟩).instructions
  | none => ""

/-! ## Recording routes (`livekit-dashboard/app/routes/egress.py`) -/

/-- Parses a nonempty ASCII digit sequence with PEP-515 single underscores
strictly between digits, accumulating into `acc`; `none` on any violation. -/
def pyDigitsAux : Nat → List Char → Option Nat
  | acc, [] => some acc
  | acc, c :: rest =>
    if c.isDigit then pyDigitsAux (10 * acc + (c.toNat - 48)) rest
    else if c = '_' then
      match rest with
      | [] => none
      | d :: r2 =>
        if d.isDigit then pyDigitsAux (10 * acc + (d.toNat - 48)) r2 else none
    else none

/-- The digit-run part of Python `int(str)`: must start with a digit. -/
def pyDigits : List Char → Option Nat
  | [] => none
  | c :: rest =>
    if c.isDigit then pyDigitsAux (c.toNat - 48) rest else none

/-- Models Python `int(str)`: surrounding whitespace stripped, optional single
sign, then a nonempty digit run (underscore separators allowed between
digits). `none` models the `ValueError` raised otherwise. Non-ASCII decimal
digits are not modelled; they only make more strings parse, to the same
nonnegative magnitudes. -/
def pyInt (s : String) : Option Int :=
  match pyStripList s.data with
  | '+' :: rest => (pyDigits rest).map (fun n => (n : Int))
  | '-' :: rest => (pyDigits rest).map (fun n => -(n : Int))
  | rest => (pyDigits rest).map (fun n => (n : Int))

/-- Models the Python slice `xs[:limit]` for an `int` limit: a nonnegative
limit keeps the first `limit` items, a negative limit drops the last
`-limit` items (stop index `max(0, len(xs) + limit)`). -/
def pySliceTo (xs : List α) (limit : Int) : List α :=
  if 0 ≤ limit then xs.take limit.toNat
  else xs.take (((xs.length : Int) + limit).toNat)

/-- `parse_range_header(range_header, file_size)`: splits on the first `=`
(unit must be `bytes` after `.strip().lower()`), splits the range on the
first `-`, parses bounds with Python `int` (empty start defaults to `0`,
empty end to `file_size - 1`), and 416-rejects out-of-bounds pairs. Any
parsing exception is caught and re-raised as HTTP 416; errors carry the
HTTP status code. -/
def parse_range_header (range_header : String) (file_size : Int) :
    Except Nat (Int × Int) :=
  match splitOnce range_header '=' with
  | none => .error 416
  | some (units, rng) =>
    if pyLower (pyStrip units) ≠ "bytes" then .error 416
    else
      match splitOnce rng '-' with
      | none => .error 416
      | some (start_s, end_s) =>
        match (if start_s = "" then some 0 else pyInt start_s),
              (if end_s = "" then some (file_size - 1) else pyInt end_s) with
        | some start, some stop =>
          if start < 0 ∨ stop < start ∨ stop > file_size - 1 then .error 416
          else .ok (start, stop)
        | _, _ => .error 416

/-- One directory entry as `RECORDINGS_DIR.iterdir()` yields it: a name, the
`is_file()` flag, and the `stat()` size and modification time. `mtime` is an
integer-comparable timestamp (`datetime.fromtimestamp` is order-preserving). -/
structure DirEntry where
  name : String
  isFile : Bool
  size : Nat
  mtime : Int
deriving DecidableEq, Repr

/-- `AUDIO_EXTS = {".ogg", ".opus", ".mp3", ".wav", ".m4a"}`. -/
def AUDIO_EXTS : List String := [".ogg", ".opus", ".mp3", ".wav", ".m4a"]

/-- `VIDEO_EXTS = {".mp4", ".webm"}`. -/
def VIDEO_EXTS : List String := [".mp4", ".webm"]

/-- Index of the last occurrence of `c`, if any. -/
def rfindIdx (c : Char) : List Char → Option Nat
  | [] => none
  | x :: xs =>
    match rfindIdx c xs with
    | some i => some (i + 1)
    | none => if x = c then some 0 else none

/-- Models `pathlib.PurePath.suffix` on a final component: the part of the
name from its last dot, unless that dot is the first or last character. -/
def pathSuffix (name : String) : String :=
  match rfindIdx '.' name.data with
  | none => ""
  | some i =>
    if 0 < i ∧ i < name.data.length - 1 then String.mk (name.data.drop i) else ""

/-- One item of the list built by `list_recordings`. -/
structure RecItem where
  filename : String
  size : Nat
  mtime : Int
deriving DecidableEq, Repr

/-- The per-entry filter of `list_recordings`: regular files whose
`p.suffix.lower()` is in `AUDIO_EXTS` (the two `continue`s). -/
def recordingKeep (e : DirEntry) : Bool :=
  e.isFile && (pyLower (pathSuffix e.name)) ∈ AUDIO_EXTS

/-- `list_recordings(limit)`: the directory state is `none` when
`RECORDINGS_DIR` does not exist, otherwise the entries `iterdir()` yields.
Keeps regular files with an audio extension, sorts by `mtime` descending
(`items.sort(key=..., reverse=True)`, a stable sort), and returns
`items[:limit]`. -/
def list_recordings (dir : Option (List DirEntry)) (limit : Int) : List RecItem :=
  match dir with
  | none => []
  | some entries =>
    let items := (entries.filter recordingKeep).map
      (fun e => { filename := e.name, size := e.size, mtime := e.mtime : RecItem })
    let sorted := items.mergeSort (fun a b => b.mtime ≤ a.mtime)
    pySliceTo sorted limit

/-- Splits a character list on `/` into raw components. -/
def splitSlash : List Char → List (List Char)
  | [] => [[]]
  | c :: rest =>
    let r := splitSlash rest
    if c = '/' then [] :: r
    else
      match r with
      | [] => [[c]]
      | h :: t => (c :: h) :: t

/-- Models PurePosixPath parsing of a path string: whether it is absolute,
and its components with empty and `"."` components dropped (pathlib drops
both; `".."` is kept). -/
def parsePurePath (s : String) : Bool × List String :=
  let comps := (splitSlash s.data).map String.mk
  let comps := comps.filter (fun p => p ≠ "" ∧ p ≠ ".")
  (s.data.head? = some '/', comps)

/-- Models `base / filename` (`pathlib` join) for an absolute `base` given by
its components from the root: an absolute `filename` replaces `base`
entirely, otherwise the components are appended. -/
def joinUnder (base : List String) (filename : String) : List String :=
  let (isAbs, comps) := parsePurePath filename
  if isAbs then comps else base ++ comps

/-- Models `Path.resolve()` on an absolute component list (symlink-free
filesystem): `".."` removes the previous component and is a no-op at the
root; `"."` components were already dropped by parsing. -/
def resolvePath (comps : List String) : List String :=
  comps.foldl (fun acc c => if c = ".." then acc.dropLast else acc ++ [c]) []

/-- Auxiliary for `pathParents`, taking the reversed component list. -/
def parentsRev : List String → List (List String)
  | [] => []
  | _ :: rest => rest.reverse :: parentsRev rest

/-- Models `PurePath.parents` of an absolute path given by its components:
the proper ancestors, nearest first, down to the root `[]`. -/
def pathParents (p : List String) : List (List String) :=
  parentsRev p.reverse

/-- `ancestorOf a p`: `a` is a strict initial segment of `p` — the
specification-side reading of "`a` is a proper ancestor directory of `p`". -/
def ancestorOf : List String → List String → Bool
  | [], [] => false
  | [], _ :: _ => true
  | _ :: _, [] => false
  | a :: as, b :: bs => a == b && ancestorOf as bs

/-- Metadata of a filesystem node (`is_file()`, `stat().st_size`). -/
structure FileInfo where
  isFile : Bool
  size : Nat
deriving DecidableEq, Repr

/-- A symlink-free filesystem: resolved absolute path ↦ node metadata
(`none` when nothing exists at that path). -/
def FileSystem : Type := List String → Option FileInfo

/-- The successful response of `serve_recording`: which file is opened and
streamed, with which status and byte range. -/
structure ServedFile where
  path : List String
  status_code : Nat
  start : Int
  stop : Int
deriving DecidableEq, Repr

/-- `serve_recording(filename, request)` with `recordingsDir` standing for the
resolved `RECORDINGS_DIR` and `fs` the filesystem: computes
`(RECORDINGS_DIR / filename).resolve()`, raises 403 when `RECORDINGS_DIR`
is not in `file_path.parents`, 404 when the path does not exist or is not a
regular file, then serves the whole file (200) or the requested byte range
(206, via `parse_range_header`, whose 416 propagates). Errors carry the
HTTP status code; only the `.ok` case opens the file. -/
def serve_recording (fs : FileSystem) (recordingsDir : List String)
    (filename : String) (range_header : Option String) : Except Nat ServedFile :=
  let file_path := resolvePath (joinUnder recordingsDir filename)
  if recordingsDir ∉ pathParents file_path then .error 403
  else
    match fs file_path with
    | none => .error 404
    | some info =>
      if !info.isFile then .error 404
      else
        let file_size : Int := info.size
        match range_header with
        | none => .ok { path := file_path, status_code := 200, start := 0, stop := file_size - 1 }
        | some rh =>
          match parse_range_header rh file_size with
          | .error c => .error c
          | .ok (s, e) => .ok { path := file_path, status_code := 206, start := s, stop := e }

/-! ## Specification-side helper definitions -/

/-- The mode normalization performed inside `_supervisor_node`:
`task_mode.lower().strip()` clamped to `SUPPORTED_MODES` with fallback
`"general"`. -/
def supNorm (mode : String) : String :=
  let m := pyStrip (pyLower mode)
  if m ∈ SUPPORTED_MODES then m else "general"

/-- The language-suffix test performed inside `_supervisor_node`:
`'hi' if selected_lang == 'hi' else 'en'`. -/
def supSfx (lang : String) : String :=
  if lang = "hi" then "hi" else "en"

/-- Emoji code points: the dedicated emoji/symbol blocks
(U+1F000–U+1FFFF: emoticons, transport, supplemental symbols and pictographs;
U+2600–U+27BF: miscellaneous symbols and dingbats; U+2B00–U+2BFF), plus the
common singleton emoji characters and emoji-sequence code points. -/
def isEmojiChar (c : Char) : Bool :=
  let n := c.toNat
  (0x1F000 ≤ n && n ≤ 0x1FFFF) ||
  (0x2600 ≤ n && n ≤ 0x27BF) ||
  (0x2B00 ≤ n && n ≤ 0x2BFF) ||
  n = 0x00A9 || n = 0x00AE || n = 0x200D || n = 0x203C || n = 0x2049 ||
  n = 0x20E3 || n = 0x2122 || n = 0x2139 || n = 0x3030 || n = 0x303D ||
  n = 0x3297 || n = 0x3299 || n = 0xFE0F

/-- A filesystem with no nodes at all. -/
def emptyFS : FileSystem := fun _ => none

example : parse_range_header "bytes=0-1023" 2048 = .ok (0, 1023) := rfl
example : parse_range_header "bytes=-" 100 = .ok (0, 99) := rfl
example : parse_range_header "bits=0-10" 100 = .error 416 := rfl
example : parse_range_header "bytes=5-4" 100 = .error 416 := rfl
example : parse_range_header "bytes=0-100" 100 = .error 416 := rfl
example : pathSuffix "a.OGG" = ".OGG" := by decide
example : pathSuffix ".bashrc" = "" := by decide
example : pathSuffix "foo." = "" := by decide
example : resolvePath (joinUnder ["recordings"] "../etc/passwd") = ["etc", "passwd"] := by decide
example : resolvePath (joinUnder ["recordings"] "/etc/passwd") = ["etc", "passwd"] := by decide
example : resolvePath (joinUnder ["recordings"] "a.ogg") = ["recordings", "a.ogg"] := by decide
example : pathParents ["recordings", "a.ogg"] = [["recordings"], []] := by decide
example (fs : FileSystem) : serve_recording fs ["recordings"] "../x" none = .error 403 := rfl

/-! ## Lemmas about the orchestrator -/

theorem supervisor_node_eq (s : OrchestrationState) :
    supervisor_node s =
      { s with task_mode := supNorm s.task_mode,
               route := supNorm s.task_mode ++ "_" ++ supSfx s.selected_lang } := rfl

theorem supNorm_mem (mode : String) : supNorm mode ∈ SUPPORTED_MODES := by
  by_cases h : pyStrip (pyLower mode) ∈ SUPPORTED_MODES
  · simp only [supNorm]
    rw [if_pos h]
    exact h
  · simp only [supNorm]
    rw [if_neg h]
    decide

theorem supSfx_cases (lang : String) : supSfx lang = "hi" ∨ supSfx lang = "en" := by
  unfold supSfx
  by_cases h : lang = "hi" <;> simp [h]

theorem supSfx_eq_hi_iff (lang : String) : supSfx lang = "hi" ↔ lang = "hi" := by
  unfold supSfx
  by_cases h : lang = "hi" <;> simp [h]

theorem get_orchestrated_eq (lang mode : String) :
    get_orchestrated_instructions lang mode =
      some (supNorm mode ++ "_" ++ supSfx lang,
            textFor (supNorm mode ++ "_" ++ supSfx lang)) := by
  have hm := supNorm_mem mode
  have hs := supSfx_cases lang
  simp only [SUPPORTED_MODES, List.mem_cons, List.not_mem_nil, or_false] at hm
  rcases hm with h | h | h | h <;> rcases hs with h2 | h2 <;>
    simp [get_orchestrated_instructions, ORCHESTRATOR_invoke, route_from_supervisor,
      supervisor_node_eq, h, h2, conditional_edge_map, graph_nodes, List.lookup, textFor,
      general_hi_node, general_en_node, sales_hi_node, sales_en_node,
      support_hi_node, support_en_node, technical_hi_node, technical_en_node]

theorem routeOf_mem (lang mode : String) :
    supNorm mode ++ "_" ++ supSfx lang ∈ legalRoutes := by
  have hm := supNorm_mem mode
  have hs := supSfx_cases lang
  simp only [SUPPORTED_MODES, List.mem_cons, List.not_mem_nil, or_false] at hm
  rcases hm with h | h | h | h <;> rcases hs with h2 | h2 <;> rw [h, h2] <;> decide

theorem legalRoute_text_nonempty : ∀ r ∈ legalRoutes, r ≠ "" ∧ textFor r ≠ "" := by
  decide

theorem strEndsWith_route_hi (m s : String) (hm : m ∈ SUPPORTED_MODES)
    (hs : s = "hi" ∨ s = "en") :
    strEndsWith (m ++ "_" ++ s) "_hi" = true ↔ s = "hi" := by
  simp only [SUPPORTED_MODES, List.mem_cons, List.not_mem_nil, or_false] at hm
  rcases hm with h | h | h | h <;> rcases hs with h2 | h2 <;> subst h <;> subst h2 <;> decide

/-! ## Claims about the orchestrator -/

/-- C1: for every pair of input strings, `get_orchestrated_instructions`
returns (never raises: the invocation is `some`) a 2-tuple of non-empty
strings; in particular the instructions component is never empty. -/
theorem c1_totality_nonempty (lang mode : String) :
    ∃ route instructions : String,
      get_orchestrated_instructions lang mode = some (route, instructions) ∧
      route ≠ "" ∧ instructions ≠ "" := by
  refine ⟨_, _, get_orchestrated_eq lang mode, ?_, ?_⟩
  · exact (legalRoute_text_nonempty _ (routeOf_mem lang mode)).1
  · exact (legalRoute_text_nonempty _ (routeOf_mem lang mode)).2

/-- C2: for every pair of input strings, the returned route is one of the
exactly 8 legal route keys, i.e. it matches
`^(general|sales|support|technical)_(hi|en)$`. -/
theorem c2_route_format (lang mode route instructions : String)
    (h : get_orchestrated_instructions lang mode = some (route, instructions)) :
    route ∈ legalRoutes := by
  rw [get_orchestrated_eq] at h
  simp only [Option.some.injEq, Prod.mk.injEq] at h
  obtain ⟨h1, -⟩ := h
  exact h1 ▸ routeOf_mem lang mode

/-- Witness for C2 at a concrete input. -/
theorem c2_route_format_witness : ("general_hi" : String) ∈ legalRoutes :=
  c2_route_format "hi" "general" "general_hi" GENERAL_HI_INSTRUCTIONS (by decide)

/-- C3: `task_mode` is normalized by lower-casing and trimming before the
membership test against the supported modes; a normalized value outside the
set silently falls back to `"general"`, and a member is kept as the route's
mode. Concretely `("hi", "  SALES ")` routes to `sales_hi` and
`("hi", "billing")` routes to `general_hi`. -/
theorem c3_mode_normalization :
    get_orchestrated_instructions "hi" "  SALES " =
      some ("sales_hi", SALES_HI_INSTRUCTIONS) ∧
    get_orchestrated_instructions "hi" "billing" =
      some ("general_hi", GENERAL_HI_INSTRUCTIONS) ∧
    (∀ lang mode : String, pyStrip (pyLower mode) ∉ SUPPORTED_MODES →
      ∃ i, get_orchestrated_instructions lang mode =
        some ("general_" ++ supSfx lang, i)) ∧
    (∀ lang mode : String, pyStrip (pyLower mode) ∈ SUPPORTED_MODES →
      ∃ i, get_orchestrated_instructions lang mode =
        some (pyStrip (pyLower mode) ++ "_" ++ supSfx lang, i)) := by
  refine ⟨by decide, by decide, ?_, ?_⟩
  · intro lang mode h
    have hn : supNorm mode = "general" := by
      simp only [supNorm]
      rw [if_neg h]
    have happ : ("general" : String) ++ "_" ++ supSfx lang = "general_" ++ supSfx lang := by
      rw [show ("general" : String) ++ "_" = "general_" from rfl]
    have hg := get_orchestrated_eq lang mode
    rw [hn, happ] at hg
    exact ⟨_, hg⟩
  · intro lang mode h
    have hn : supNorm mode = pyStrip (pyLower mode) := by
      simp only [supNorm]
      rw [if_pos h]
    have hg := get_orchestrated_eq lang mode
    rw [hn] at hg
    exact ⟨_, hg⟩

/-- Witness for C3 at a concrete input. -/
theorem c3_mode_normalization_witness :
    ∃ i, get_orchestrated_instructions "en" "billing" =
      some ("general_" ++ supSfx "en", i) :=
  c3_mode_normalization.2.2.1 "en" "billing" (by decide)

/-- C4: the route's language suffix is `"hi"` exactly when `selected_lang`
is the literal `"hi"`; every other string yields suffix `"en"`. Concretely
`("hi", "general")` routes to `general_hi` while `("en", "general")` and
`("xx", "general")` route to `general_en`. -/
theorem c4_language_suffix :
    get_orchestrated_instructions "hi" "general" =
      some ("general_hi", GENERAL_HI_INSTRUCTIONS) ∧
    get_orchestrated_instructions "en" "general" =
      some ("general_en", GENERAL_EN_INSTRUCTIONS) ∧
    get_orchestrated_instructions "xx" "general" =
      some ("general_en", GENERAL_EN_INSTRUCTIONS) ∧
    (∀ lang mode route instructions : String,
      get_orchestrated_instructions lang mode = some (route, instructions) →
      (strEndsWith route "_hi" = true ↔ lang = "hi")) := by
  refine ⟨by decide, by decide, by decide, ?_⟩
  intro lang mode route instructions h
  rw [get_orchestrated_eq] at h
  simp only [Option.some.injEq, Prod.mk.injEq] at h
  obtain ⟨h1, -⟩ := h
  rw [← h1, strEndsWith_route_hi _ _ (supNorm_mem mode) (supSfx_cases lang)]
  exact supSfx_eq_hi_iff lang

/-- Witness for C4 at a concrete input. -/
theorem c4_language_suffix_witness :
    strEndsWith "general_en" "_hi" = true ↔ ("xx" : String) = "hi" :=
  c4_language_suffix.2.2.2 "xx" "general" "general_en" GENERAL_EN_INSTRUCTIONS
    (by decide)

/-- C5: `get_orchestrated_instructions` is deterministic — it is a pure
function of its two string arguments (the embedding threads no state,
randomness or time), so any two calls on equal inputs return identical
`(route, instructions)` pairs. -/
theorem c5_deterministic (lang₁ mode₁ lang₂ mode₂ : String)
    (hl : lang₁ = lang₂) (hm : mode₁ = mode₂) :
    get_orchestrated_instructions lang₁ mode₁ =
      get_orchestrated_instructions lang₂ mode₂ := by
  rw [hl, hm]

/-- Witness for C5 at a concrete input. -/
theorem c5_deterministic_witness :
    get_orchestrated_instructions "hi" "general" =
      get_orchestrated_instructions "hi" "general" :=
  c5_deterministic "hi" "general" "hi" "general" rfl rfl

/-- C6: every returned instruction text contains the "short and concise"
constraint marker and no emoji character, and Hindi-suffixed routes carry
Hindi-language framing ("Hindi", not "English") while en-suffixed routes
carry English-language framing ("English", not "Hindi"). -/
theorem c6_template_contract (lang mode route instructions : String)
    (h : get_orchestrated_instructions lang mode = some (route, instructions)) :
    strContains instructions "short and concise" = true ∧
    instructions.data.any isEmojiChar = false ∧
    (strEndsWith route "_hi" = true →
      strContains instructions "Hindi" = true ∧
      strContains instructions "English" = false) ∧
    (strEndsWith route "_en" = true →
      strContains instructions "English" = true ∧
      strContains instructions "Hindi" = false) := by
  rw [get_orchestrated_eq] at h
  simp only [Option.some.injEq, Prod.mk.injEq] at h
  obtain ⟨h1, h2⟩ := h
  subst h1
  subst h2
  have hm := supNorm_mem mode
  have hs := supSfx_cases lang
  simp only [SUPPORTED_MODES, List.mem_cons, List.not_mem_nil, or_false] at hm
  rcases hm with h | h | h | h <;> rcases hs with h2 | h2 <;> rw [h, h2] <;> decide

/-- Witness for C6 at a concrete input. -/
theorem c6_template_contract_witness :
    strContains GENERAL_HI_INSTRUCTIONS "short and concise" = true ∧
    GENERAL_HI_INSTRUCTIONS.data.any isEmojiChar = false ∧
    (strEndsWith "general_hi" "_hi" = true →
      strContains GENERAL_HI_INSTRUCTIONS "Hindi" = true ∧
      strContains GENERAL_HI_INSTRUCTIONS "English" = false) ∧
    (strEndsWith "general_hi" "_en" = true →
      strContains GENERAL_HI_INSTRUCTIONS "English" = true ∧
      strContains GENERAL_HI_INSTRUCTIONS "Hindi" = false) :=
  c6_template_contract "hi" "general" "general_hi" GENERAL_HI_INSTRUCTIONS
    (by decide)

/-- C7: each of the 8 legal routes is produced by some concrete input pair,
and the 8 instruction texts so produced are pairwise distinct. -/
theorem c7_coverage :
    get_orchestrated_instructions "hi" "general" =
      some ("general_hi", GENERAL_HI_INSTRUCTIONS) ∧
    get_orchestrated_instructions "en" "general" =
      some ("general_en", GENERAL_EN_INSTRUCTIONS) ∧
    get_orchestrated_instructions "hi" "sales" =
      some ("sales_hi", SALES_HI_INSTRUCTIONS) ∧
    get_orchestrated_instructions "en" "sales" =
      some ("sales_en", SALES_EN_INSTRUCTIONS) ∧
    get_orchestrated_instructions "hi" "support" =
      some ("support_hi", SUPPORT_HI_INSTRUCTIONS) ∧
    get_orchestrated_instructions "en" "support" =
      some ("support_en", SUPPORT_EN_INSTRUCTIONS) ∧
    get_orchestrated_instructions "hi" "technical" =
      some ("technical_hi", TECHNICAL_HI_INSTRUCTIONS) ∧
    get_orchestrated_instructions "en" "technical" =
      some ("technical_en", TECHNICAL_EN_INSTRUCTIONS) ∧
    (legalRoutes.map textFor).Nodup := by
  refine ⟨by decide, by decide, by decide, by decide, by decide, by decide,
    by decide, by decide, by decide⟩

/-! ## Lemmas about parse_range_header -/

theorem splitOnceAux_append (c : Char) (a b : List Char) (h : c ∉ a) :
    splitOnceAux c (a ++ c :: b) = some (a, b) := by
  induction a with
  | nil => simp [splitOnceAux]
  | cons x xs ih =>
    have hx : ¬(x = c) := fun hx => h (hx ▸ List.mem_cons_self x xs)
    have hc : c ∉ xs := fun hc => h (List.mem_cons_of_mem _ hc)
    simp [splitOnceAux, hx, ih hc]

theorem splitOnce_append (u r : String) (h : '=' ∉ u.data) :
    splitOnce (u ++ "=" ++ r) '=' = some (u, r) := by
  simp only [splitOnce, String.data_append]
  rw [List.append_assoc]
  rw [show ("=" : String).data ++ r.data = '=' :: r.data from rfl]
  rw [splitOnceAux_append _ _ _ h]

/-- C8: for every Range header and positive file size, `parse_range_header`
either returns `(start, stop)` with `0 ≤ start ≤ stop ≤ file_size - 1` or
raises HTTP 416; an omitted start defaults to 0 and an omitted end to
`file_size - 1` (header `"bytes=-"`); a header whose unit part is not
`bytes` after normalization is rejected with 416. -/
theorem c8_range_bounds (range_header : String) (file_size : Int)
    (hfs : 0 < file_size) :
    (∀ s e : Int, parse_range_header range_header file_size = .ok (s, e) →
      0 ≤ s ∧ s ≤ e ∧ e ≤ file_size - 1) ∧
    (∀ c : Nat, parse_range_header range_header file_size = .error c → c = 416) ∧
    parse_range_header "bytes=-" file_size = .ok (0, file_size - 1) ∧
    (∀ units rng : String, '=' ∉ units.data →
      pyLower (pyStrip units) ≠ "bytes" →
      parse_range_header (units ++ "=" ++ rng) file_size = .error 416) := by
  refine ⟨?_, ?_, ?_, ?_⟩
  · intro s e h
    simp only [parse_range_header] at h
    repeat' split at h
    all_goals simp only [Except.ok.injEq, Prod.mk.injEq, reduceCtorEq] at h
    obtain ⟨rfl, rfl⟩ := h
    omega
  · intro c h
    simp only [parse_range_header] at h
    repeat' split at h
    all_goals simp only [Except.error.injEq, reduceCtorEq] at h
    all_goals omega
  · have h1 : splitOnce "bytes=-" '=' = some ("bytes", "-") := rfl
    have h2 : splitOnce "-" '-' = some ("", "") := rfl
    simp only [parse_range_header, h1, h2]
    norm_num
    rw [if_pos (show pyLower (pyStrip "bytes") = "bytes" from rfl)]
    rw [if_neg (by omega : ¬ file_size < 1)]
  · intro units rng hne hunit
    have h1 := splitOnce_append units rng hne
    simp only [parse_range_header, h1]
    rw [if_pos hunit]

/-- Witness for C8 at a concrete input. -/
theorem c8_range_bounds_witness : (0:Int) ≤ 2 ∧ (2:Int) ≤ 5 ∧ (5:Int) ≤ 10 - 1 :=
  (c8_range_bounds "bytes=2-5" 10 (by decide)).1 2 5 rfl

/-! ## Lemmas about list_recordings -/

theorem audio_not_video : ∀ s ∈ AUDIO_EXTS, s ∉ VIDEO_EXTS := by decide

theorem pySliceTo_length_le (xs : List α) (limit : Int) (hl : 0 ≤ limit) :
    ((pySliceTo xs limit).length : Int) ≤ limit := by
  simp only [pySliceTo, if_pos hl]
  have h1 : (xs.take limit.toNat).length ≤ limit.toNat := by
    rw [List.length_take]
    exact min_le_left _ _
  omega

theorem pySliceTo_subset (xs : List α) (limit : Int) :
    pySliceTo xs limit ⊆ xs := by
  simp only [pySliceTo]
  split <;> exact List.take_subset _ _

theorem pySliceTo_pairwise {R : α → α → Prop} {xs : List α} (h : xs.Pairwise R)
    (limit : Int) : (pySliceTo xs limit).Pairwise R := by
  simp only [pySliceTo]
  split <;> exact h.sublist (List.take_sublist _ _)

/-- C9 counterexample: the claim quantifies over every limit, but the
parameter is a Python `int`; at `limit = -1` the slice `items[:limit]` cannot
return "at most `limit` entries" (a length is never ≤ -1), already for the
nonexistent-directory state. -/
theorem c9_negative_limit_counterexample :
    ¬ (((list_recordings none (-1)).length : Int) ≤ -1) := by decide

/-- C9 (amended): for every nonnegative limit the result has at most `limit`
entries (for negative limits Python slicing drops `-limit` items from the
end instead); every returned item corresponds to a regular file of the
directory whose lower-cased extension is an audio extension (hence not a
video extension); the result is sorted by modification time newest first;
and a nonexistent directory yields the empty list. -/
theorem c9_amended_properties (dir : Option (List DirEntry)) (limit : Int) :
    (0 ≤ limit → ((list_recordings dir limit).length : Int) ≤ limit) ∧
    (∀ it ∈ list_recordings dir limit, ∃ e ∈ dir.getD [],
      e.isFile = true ∧ pyLower (pathSuffix e.name) ∈ AUDIO_EXTS ∧
      pyLower (pathSuffix e.name) ∉ VIDEO_EXTS ∧
      it.filename = e.name ∧ it.size = e.size ∧ it.mtime = e.mtime) ∧
    (list_recordings dir limit).Pairwise (fun a b => b.mtime ≤ a.mtime) ∧
    (dir = none → list_recordings dir limit = []) := by
  cases dir with
  | none =>
    refine ⟨?_, ?_, ?_, ?_⟩ <;> simp [list_recordings]
  | some entries =>
    refine ⟨?_, ?_, ?_, by simp⟩
    · intro hl
      simp only [list_recordings]
      exact pySliceTo_length_le _ _ hl
    · intro it hit
      simp only [list_recordings] at hit
      have hx := pySliceTo_subset _ _ hit
      rw [List.mem_mergeSort] at hx
      simp only [List.mem_map, List.mem_filter] at hx
      obtain ⟨e, ⟨he, hkeep⟩, heq⟩ := hx
      simp only [recordingKeep, Bool.and_eq_true, decide_eq_true_eq] at hkeep
      subst heq
      exact ⟨e, by simpa using he, hkeep.1, hkeep.2,
        audio_not_video _ hkeep.2, rfl, rfl, rfl⟩
    · simp only [list_recordings]
      apply pySliceTo_pairwise
      have htrans : ∀ a b c : RecItem, decide (b.mtime ≤ a.mtime) = true →
          decide (c.mtime ≤ b.mtime) = true → decide (c.mtime ≤ a.mtime) = true := by
        intro a b c hab hbc
        simp only [decide_eq_true_eq] at *
        omega
      have htotal : ∀ a b : RecItem,
          (decide (b.mtime ≤ a.mtime) || decide (a.mtime ≤ b.mtime)) = true := by
        intro a b
        simp only [Bool.or_eq_true, decide_eq_true_eq]
        omega
      exact (List.sorted_mergeSort htrans htotal _).imp fun h => of_decide_eq_true h

/-- Witness for C9 (amended) at a concrete input. -/
theorem c9_amended_properties_witness :
    ((list_recordings (some [⟨"a.ogg", true, 5, 100⟩]) 200).length : Int) ≤ 200 :=
  (c9_amended_properties (some [⟨"a.ogg", true, 5, 100⟩]) 200).1 (by decide)

/-! ## Lemmas about serve_recording -/

theorem parentsRev_mem (r a : List String) :
    a ∈ parentsRev r ↔ ∃ t, t ≠ [] ∧ t ++ a.reverse = r := by
  induction r with
  | nil =>
    rw [show parentsRev [] = [] from rfl]
    simp only [List.not_mem_nil, false_iff]
    rintro ⟨t, ht, heq⟩
    rcases List.append_eq_nil.mp heq with ⟨rfl, -⟩
    exact ht rfl
  | cons x rest ih =>
    simp only [parentsRev, List.mem_cons, ih]
    constructor
    · rintro (rfl | ⟨t, ht, rfl⟩)
      · exact ⟨[x], by simp, by simp⟩
      · exact ⟨x :: t, by simp, by simp⟩
    · rintro ⟨t, ht, heq⟩
      cases t with
      | nil => exact absurd rfl ht
      | cons y ys =>
        simp only [List.cons_append, List.cons.injEq] at heq
        obtain ⟨rfl, h2⟩ := heq
        cases ys with
        | nil =>
          left
          simp only [List.nil_append] at h2
          rw [← h2, List.reverse_reverse]
        | cons z zs =>
          right
          exact ⟨z :: zs, by simp, h2⟩

theorem ancestorOf_iff (a p : List String) :
    ancestorOf a p = true ↔ ∃ u, u ≠ [] ∧ p = a ++ u := by
  induction a generalizing p with
  | nil =>
    cases p with
    | nil => simp [ancestorOf]
    | cons x xs =>
      simp only [ancestorOf, List.nil_append, true_iff]
      exact ⟨x :: xs, by simp, rfl⟩
  | cons b bs ih =>
    cases p with
    | nil => simp [ancestorOf]
    | cons x xs =>
      simp only [ancestorOf, Bool.and_eq_true, beq_iff_eq, ih]
      constructor
      · rintro ⟨rfl, u, hu, rfl⟩
        exact ⟨u, hu, by simp⟩
      · rintro ⟨u, hu, heq⟩
        simp only [List.cons_append, List.cons.injEq] at heq
        obtain ⟨rfl, h2⟩ := heq
        exact ⟨rfl, u, hu, h2⟩

theorem mem_pathParents (a p : List String) :
    a ∈ pathParents p ↔ ancestorOf a p = true := by
  rw [pathParents, parentsRev_mem, ancestorOf_iff]
  constructor
  · rintro ⟨t, ht, heq⟩
    refine ⟨t.reverse, by simpa using ht, ?_⟩
    have h2 := congrArg List.reverse heq
    simpa [List.reverse_append] using h2.symm
  · rintro ⟨u, hu, rfl⟩
    refine ⟨u.reverse, by simpa using hu, ?_⟩
    simp [List.reverse_append]

/-- C10: `serve_recording` only ever opens a file strictly inside the
recordings directory: when the resolved joined path does not have the
recordings directory as a proper ancestor (traversal via `..`, an absolute
filename, or resolving to the directory itself) it returns 403 without
consulting the filesystem; inside the directory, a missing path or a
non-regular file yields 404; and every successful response streams a path
that is strictly under the recordings directory and is an existing regular
file. -/
theorem c10_path_containment (fs : FileSystem) (rdir : List String)
    (filename : String) (rh : Option String) :
    (ancestorOf rdir (resolvePath (joinUnder rdir filename)) = false →
      serve_recording fs rdir filename rh = .error 403) ∧
    (ancestorOf rdir (resolvePath (joinUnder rdir filename)) = true →
      fs (resolvePath (joinUnder rdir filename)) = none →
      serve_recording fs rdir filename rh = .error 404) ∧
    (∀ info : FileInfo,
      ancestorOf rdir (resolvePath (joinUnder rdir filename)) = true →
      fs (resolvePath (joinUnder rdir filename)) = some info →
      info.isFile = false →
      serve_recording fs rdir filename rh = .error 404) ∧
    (∀ resp : ServedFile, serve_recording fs rdir filename rh = .ok resp →
      ancestorOf rdir resp.path = true ∧
      ∃ info : FileInfo, fs resp.path = some info ∧ info.isFile = true) := by
  refine ⟨?_, ?_, ?_, ?_⟩
  · intro h
    have hnm : rdir ∉ pathParents (resolvePath (joinUnder rdir filename)) := by
      rw [mem_pathParents]
      simp [h]
    simp only [serve_recording]
    rw [if_pos hnm]
  · intro h hnone
    have hm : rdir ∈ pathParents (resolvePath (joinUnder rdir filename)) :=
      (mem_pathParents _ _).mpr h
    simp only [serve_recording]
    rw [if_neg (not_not_intro hm), hnone]
  · intro info h hsome hfile
    have hm : rdir ∈ pathParents (resolvePath (joinUnder rdir filename)) :=
      (mem_pathParents _ _).mpr h
    simp only [serve_recording]
    rw [if_neg (not_not_intro hm), hsome]
    simp [hfile]
  · intro resp h
    by_cases hc : rdir ∈ pathParents (resolvePath (joinUnder rdir filename))
    · simp only [serve_recording] at h
      rw [if_neg (not_not_intro hc)] at h
      cases hfs : fs (resolvePath (joinUnder rdir filename)) with
      | none =>
        rw [hfs] at h
        simp at h
      | some info =>
        rw [hfs] at h
        by_cases hfile : info.isFile = true
        · simp only [hfile, Bool.not_true, Bool.false_eq_true, if_false] at h
          cases rh with
          | none =>
            simp only [Except.ok.injEq] at h
            subst h
            exact ⟨(mem_pathParents _ _).mp hc, info, hfs, hfile⟩
          | some rhs =>
            cases hpr : parse_range_header rhs ((info.size : Int)) with
            | error c =>
              simp only [hpr] at h
              exact absurd h (by simp)
            | ok se =>
              rcases se with ⟨s, e⟩
              simp only [hpr, Except.ok.injEq] at h
              subst h
              exact ⟨(mem_pathParents _ _).mp hc, info, hfs, hfile⟩
        · rw [Bool.not_eq_true] at hfile
          simp [hfile] at h
    · simp only [serve_recording] at h
      rw [if_pos hc] at h
      simp at h

/-- Witness for C10 at a concrete input. -/
theorem c10_path_containment_witness :
    serve_recording emptyFS ["recordings"] "../etc/passwd" none = .error 403 :=
  (c10_path_containment emptyFS ["recordings"] "../etc/passwd" none).1 (by decide)
